import Mathlib

/-!
Verification of the configuration-resolution chain of `src/cli.rs`
(template-rust-cli): a chain-of-responsibility over lookup strategies
(command-line argument, environment variable, JSON file with recursive
key search, plain file, fixed default).

The embedding below translates the Rust handlers into pure Lean
functions.  Ambient process state (environment variables and the file
system) is passed explicitly as a `State`; fallible operations return
`Option`.
-/

/--
Modelled from the spec: a structured (JSON-like) document — an
object/array/scalar tree.  This models `serde_json::Value` restricted to
the fragment the repository exercises: numbers are integers (floats are
out of scope), and object members are kept as an insertion-ordered list
of pairs.  The iteration order of `serde_json::Map` depends on a feature
flag of the crate chosen in the manifest, which is not among the source
files; the spec describes insertion order, so the model keeps members in
insertion order.
-/
inductive Json where
  | str (s : String)
  | num (n : Int)
  | bool (b : Bool)
  | null
  | arr (elems : List Json)
  | obj (members : List (String × Json))

/-- Models `serde_json::Map::get`: the value of the first member whose
name equals `key`, if any. -/
def lookupMember : List (String × Json) → String → Option Json
  | [], _ => none
  | (k, v) :: rest, key => if k = key then some v else lookupMember rest key

/-- Escaping of one character inside a rendered JSON string literal
(models the escapes `serde_json`'s `Display` produces for the characters
appearing in this development). -/
def escapeChar (c : Char) : String :=
  if c = '"' then "\\\""
  else if c = '\\' then "\\\\"
  else if c = '\n' then "\\n"
  else if c = '\t' then "\\t"
  else if c = '\r' then "\\r"
  else String.mk [c]

/-- Escaping of a whole string for rendering. -/
def escapeString (s : String) : String :=
  String.join (s.data.map escapeChar)

mutual

/-- Models `serde_json::Value::to_string()` (the `Display`
implementation): compact JSON rendering with no inserted whitespace; a
number renders as its decimal representation. -/
def renderJson : Json → String
  | .str s => "\"" ++ escapeString s ++ "\""
  | .num n => toString n
  | .bool true => "true"
  | .bool false => "false"
  | .null => "null"
  | .arr elems => "[" ++ renderElems elems ++ "]"
  | .obj members => "\x7b" ++ renderMembers members ++ "\x7d"

/-- Comma-separated rendering of array elements. -/
def renderElems : List Json → String
  | [] => ""
  | [x] => renderJson x
  | x :: y :: rest => renderJson x ++ "," ++ renderElems (y :: rest)

/-- Comma-separated rendering of object members. -/
def renderMembers : List (String × Json) → String
  | [] => ""
  | [(k, v)] => "\"" ++ escapeString k ++ "\":" ++ renderJson v
  | (k, v) :: m :: rest =>
      "\"" ++ escapeString k ++ "\":" ++ renderJson v ++ "," ++ renderMembers (m :: rest)

end

/-- Models lines 103–108 of `cli.rs`: the match on the found member
value — a JSON string is returned as-is (`value.as_str().to_string()`),
any other value through `value.to_string()`. -/
def stringifyValue : Json → String
  | .str s => s
  | v => renderJson v

mutual

/-- Models `JSONFileHandler::find_key_recursive` (`cli.rs` lines
99–126): on an object, first look the key up among the direct members
and return its stringified value; otherwise recurse into the member
values in order; on an array, recurse into the elements in order; on a
scalar, no match. -/
def find_key_recursive : Json → String → Option String
  | .obj map, key =>
      match lookupMember map key with
      | some value => some (stringifyValue value)
      | none => findInMembers map key
  | .arr arr, key => findInElems arr key
  | _, _ => none

/-- The `for (_, value) in map.iter()` loop of `find_key_recursive`:
recurse into each member value in order, returning the first hit. -/
def findInMembers : List (String × Json) → String → Option String
  | [], _ => none
  | (_, value) :: rest, key =>
      match find_key_recursive value key with
      | some found => some found
      | none => findInMembers rest key

/-- The `for value in arr.iter()` loop of `find_key_recursive`:
recurse into each element in order, returning the first hit. -/
def findInElems : List Json → String → Option String
  | [], _ => none
  | value :: rest, key =>
      match find_key_recursive value key with
      | some found => some found
      | none => findInElems rest key

end

/-! ### A model of `serde_json::from_str::<Value>`

The handlers call `serde_json::from_str` to turn file data into a
`Value`.  The parser below models that library call on the JSON fragment
used by this repository: objects, arrays, strings with the basic
escapes, integer numbers, `true`, `false`, `null`, with insignificant
whitespace, and requiring the whole input to be consumed.  Inputs
outside this fragment (e.g. fractional numbers, `\u` escapes) are
rejected by the model.  Recursion is bounded by explicit fuel; the fuel
supplied at the top level exceeds any possible number of recursive
calls for the given input. -/

/-- Whitespace characters skipped between JSON tokens. -/
def isWsChar (c : Char) : Bool :=
  c = ' ' || c = '\n' || c = '\t' || c = '\r'

/-- Skip leading whitespace. -/
def skipWs : List Char → List Char
  | [] => []
  | c :: rest => if isWsChar c then skipWs rest else c :: rest

/-- Parse the body of a JSON string literal, after the opening quote;
returns the decoded string and the input after the closing quote. -/
def parseStringBody : List Char → Option (String × List Char)
  | [] => none
  | c :: rest =>
      if c = '"' then some ("", rest)
      else if c = '\\' then
        match rest with
        | [] => none
        | e :: rest2 =>
            let decoded : Option Char :=
              if e = '"' then some '"'
              else if e = '\\' then some '\\'
              else if e = '/' then some '/'
              else if e = 'n' then some '\n'
              else if e = 't' then some '\t'
              else if e = 'r' then some '\r'
              else none
            match decoded with
            | some d =>
                match parseStringBody rest2 with
                | some (s, r) => some (String.mk (d :: s.data), r)
                | none => none
            | none => none
      else
        match parseStringBody rest with
        | some (s, r) => some (String.mk (c :: s.data), r)
        | none => none

/-- Consume a run of decimal digits, accumulating their value. -/
def takeDigits (acc : Nat) : List Char → (Nat × List Char)
  | [] => (acc, [])
  | c :: rest =>
      if c.isDigit then takeDigits (acc * 10 + (c.toNat - 48)) rest
      else (acc, c :: rest)

/-- Parse an integer JSON number (an optional minus sign followed by at
least one digit). -/
def parseNumber : List Char → Option (Json × List Char)
  | [] => none
  | c :: rest =>
      if c = '-' then
        match rest with
        | [] => none
        | d :: rest2 =>
            if d.isDigit then
              let (n, r) := takeDigits 0 (d :: rest2)
              some (.num (-(Int.ofNat n)), r)
            else none
      else if c.isDigit then
        let (n, r) := takeDigits 0 (c :: rest)
        some (.num (Int.ofNat n), r)
      else none

/-- Consume an expected literal character sequence. -/
def dropLit : List Char → List Char → Option (List Char)
  | [], cs => some cs
  | l :: ls, c :: cs => if c = l then dropLit ls cs else none
  | _ :: _, [] => none

mutual

/-- Parse one JSON value, returning it and the remaining input. -/
def parseValue : Nat → List Char → Option (Json × List Char)
  | 0, _ => none
  | fuel + 1, cs =>
      match skipWs cs with
      | [] => none
      | c :: rest =>
          if c = '\x7b' then
            match skipWs rest with
            | '\x7d' :: r => some (.obj [], r)
            | rest2 =>
                match parseMembers fuel rest2 with
                | some (members, r) => some (.obj members, r)
                | none => none
          else if c = '[' then
            match skipWs rest with
            | ']' :: r => some (.arr [], r)
            | rest2 =>
                match parseElems fuel rest2 with
                | some (elems, r) => some (.arr elems, r)
                | none => none
          else if c = '"' then
            match parseStringBody rest with
            | some (s, r) => some (.str s, r)
            | none => none
          else if c = 't' then
            match dropLit ['r', 'u', 'e'] rest with
            | some r => some (.bool true, r)
            | none => none
          else if c = 'f' then
            match dropLit ['a', 'l', 's', 'e'] rest with
            | some r => some (.bool false, r)
            | none => none
          else if c = 'n' then
            match dropLit ['u', 'l', 'l'] rest with
            | some r => some (.null, r)
            | none => none
          else parseNumber (c :: rest)

/-- Parse a non-empty comma-separated member list of an object,
including the closing brace. -/
def parseMembers : Nat → List Char → Option (List (String × Json) × List Char)
  | 0, _ => none
  | fuel + 1, cs =>
      match skipWs cs with
      | '"' :: rest =>
          match parseStringBody rest with
          | some (k, afterKey) =>
              match skipWs afterKey with
              | ':' :: afterColon =>
                  match parseValue fuel afterColon with
                  | some (v, afterVal) =>
                      match skipWs afterVal with
                      | ',' :: afterComma =>
                          match parseMembers fuel afterComma with
                          | some (members, r) => some ((k, v) :: members, r)
                          | none => none
                      | '\x7d' :: afterBrace => some ([(k, v)], afterBrace)
                      | _ => none
                  | none => none
              | _ => none
          | none => none
      | _ => none

/-- Parse a non-empty comma-separated element list of an array,
including the closing bracket. -/
def parseElems : Nat → List Char → Option (List Json × List Char)
  | 0, _ => none
  | fuel + 1, cs =>
      match parseValue fuel cs with
      | some (v, afterVal) =>
          match skipWs afterVal with
          | ',' :: afterComma =>
              match parseElems fuel afterComma with
              | some (elems, r) => some (v :: elems, r)
              | none => none
          | ']' :: afterBracket => some ([v], afterBracket)
          | _ => none
      | none => none

end

/-- Models `serde_json::from_str::<Value>` on the fragment described
above: parse one value and require that only whitespace remains. -/
def parseJson (s : String) : Option Json :=
  match parseValue (2 * s.length + 2) s.data with
  | some (v, rest) =>
      match skipWs rest with
      | [] => some v
      | _ => none
  | none => none

/-! ### The handler chain -/

/-- The ambient process state the handlers consult: `env` models
`std::env::var` (`none` when the variable is unset), and `fs` models
opening a file at a path and reading it to a string (`none` on any I/O
failure). -/
structure State where
  env : String → Option String
  fs : String → Option String

/-- The closed set of handlers of `cli.rs`, each optionally holding the
next handler of the chain (`next: Option<Box<dyn Handler>>`):

* `arg args next` — `ArgHandler`, holding a pre-parsed argument map
  (modelled as an association list, keys unique);
* `env next` — `EnvHandler`;
* `file path next` — `FileHandler`;
* `jsonFile path next` — `JSONFileHandler`, whose Rust value wraps a
  `FileHandler \x7b file_path: path, next \x7d`;
* `default value` — `DefaultHandler`, which holds no next. -/
inductive Handler where
  | arg (args : List (String × String)) (next : Option Handler)
  | env (next : Option Handler)
  | file (filePath : String) (next : Option Handler)
  | jsonFile (filePath : String) (next : Option Handler)
  | default (value : String)

/-- Models `ArgMatches::get_one::<String>` on the pre-parsed argument
map held by `ArgHandler`. -/
def lookupArgs : List (String × String) → String → Option String
  | [], _ => none
  | (k, v) :: rest, key => if k = key then some v else lookupArgs rest key

mutual

/-- Models `Handler::handle_request` for each handler of `cli.rs`.

* `ArgHandler` (lines 26–34): return the argument value when present,
  otherwise delegate to `next` when present, otherwise `None`.
* `EnvHandler` (lines 49–57): return `env::var(key)` when it succeeds,
  otherwise delegate / `None`.
* `FileHandler` (lines 74–85): return the file's entire content when
  open-and-read succeeds (the key is ignored), otherwise delegate /
  `None`.
* `JSONFileHandler` (lines 130–143): obtain `file_data` through the
  wrapped `FileHandler` (inlined here), then: if `file_data` parses as
  JSON, return the recursive key search's hit, or `None` when the search
  misses; if parsing fails, delegate to `next`; if no `file_data` was
  produced, `None`.
* `DefaultHandler` (lines 159–161): always return the held value.

Every handler's fallback epilogue `if let Some(next_handler) =
&self.next \x7b return next_handler.handle_request(key); \x7d None` is
factored into the mutually recursive `handleNext`. -/
def handle_request (st : State) : Handler → String → Option String
  | .arg args next, key =>
      match lookupArgs args key with
      | some value => some value
      | none => handleNext st next key
  | .env next, key =>
      match st.env key with
      | some value => some value
      | none => handleNext st next key
  | .file filePath next, key =>
      match st.fs filePath with
      | some content => some content
      | none => handleNext st next key
  | .jsonFile filePath next, key =>
      match (match st.fs filePath with
             | some content => some content
             | none => handleNext st next key) with
      | some fileData =>
          match parseJson fileData with
          | some parsedJson =>
              match find_key_recursive parsedJson key with
              | some value => some value
              | none => none
          | none => handleNext st next key
      | none => none
  | .default value, _ => some value

/-- The shared delegation epilogue: forward the request to the next
handler when one is held, otherwise produce no value. -/
def handleNext (st : State) : Option Handler → String → Option String
  | some nextHandler, key => handle_request st nextHandler key
  | none, _ => none

end

/-! ### Derived notions used to state the claims -/

/-- First non-`none` entry of a list of optional results; the spec's
"return the first non-empty result found". -/
def firstSome : List (Option String) → Option String
  | [] => none
  | some v :: _ => some v
  | none :: rest => firstSome rest

/-- What a handler obtains from its own source alone, with no recourse
to `next`: the argument map entry for `ArgHandler`, the environment
variable for `EnvHandler`, the file content for `FileHandler`, the
stringified search hit in the parsed own-file content for
`JSONFileHandler`, and the held value for `DefaultHandler`. -/
def ownLookup (st : State) : Handler → String → Option String
  | .arg args _, key => lookupArgs args key
  | .env _, key => st.env key
  | .file filePath _, _ => st.fs filePath
  | .jsonFile filePath _, key =>
      (st.fs filePath).bind fun content =>
        (parseJson content).bind fun doc => find_key_recursive doc key
  | .default value, _ => some value

/-- Replace the `next` handler a handler holds (`DefaultHandler` holds
none). -/
def setNext : Handler → Option Handler → Handler
  | .arg args _, n => .arg args n
  | .env _, n => .env n
  | .file filePath _, n => .file filePath n
  | .jsonFile filePath _, n => .jsonFile filePath n
  | .default value, _ => .default value

/-- Whether a `JSONFileHandler` occurs anywhere in the chain. -/
def containsJsonFile : Handler → Bool
  | .arg _ next =>
      match next with
      | some n => containsJsonFile n
      | none => false
  | .env next =>
      match next with
      | some n => containsJsonFile n
      | none => false
  | .file _ next =>
      match next with
      | some n => containsJsonFile n
      | none => false
  | .jsonFile _ _ => true
  | .default _ => false

/-- Whether the chain's terminal handler (the one with no `next`) is a
`DefaultHandler`. -/
def endsInDefault : Handler → Bool
  | .arg _ next =>
      match next with
      | some n => endsInDefault n
      | none => false
  | .env next =>
      match next with
      | some n => endsInDefault n
      | none => false
  | .file _ next =>
      match next with
      | some n => endsInDefault n
      | none => false
  | .jsonFile _ next =>
      match next with
      | some n => endsInDefault n
      | none => false
  | .default _ => true

/-- Modelled from the spec: resolution for an environment strategy that
holds a configured pre-pended name part `p` — "Builds the effective
lookup name by concatenating an optional configured" pre-pended part
"with the key.  Queries the process environment for that name."  The
`EnvHandler` of `cli.rs` holds no such field; this definition exists
only to compare the spec's description with the code's behaviour. -/
def envResolveWithPre (st : State) (p : String) (key : String) : Option String :=
  st.env (p ++ key)

/-! ### Concrete states for witnesses and counterexamples -/

/-- A state with no environment variables and no readable files. -/
def emptyState : State :=
  { env := fun _ => none, fs := fun _ => none }

/-- A state whose file system holds one JSON file that parses but
contains no member named "key". -/
def keylessJsonState : State :=
  { env := fun _ => none
    fs := fun p => if p = "config.json" then some "\x7b\"other\": 1\x7d" else none }

/-- A state with exactly one environment variable, `verbosity`. -/
def verbosityEnvState : State :=
  { env := fun k => if k = "verbosity" then some "debug" else none
    fs := fun _ => none }

/-- A state whose file system holds one plain text file ending in a
newline. -/
def plainFileState : State :=
  { env := fun _ => none
    fs := fun p => if p = "file.txt" then some "test_content\n" else none }

/-- The document of the spec's order-sensitivity example: an object
whose first member holds a nested object containing "key", and whose
second member is "key" itself. -/
def shallowDeepDoc : Json :=
  .obj [("a", .obj [("key", .str "deep")]), ("key", .str "shallow")]

/-! ### Helper lemmas -/

/-- The member loop of `find_key_recursive` returns the first non-empty
recursive result among the member values, in order. -/
theorem findInMembers_eq_firstSome (map : List (String × Json)) (key : String) :
    findInMembers map key = firstSome (map.map fun m => find_key_recursive m.2 key) := by
  induction map with
  | nil => rfl
  | cons head tail ih =>
      obtain ⟨k, v⟩ := head
      simp only [findInMembers, List.map]
      cases hf : find_key_recursive v key <;> simp [firstSome, hf, ih]

/-- The element loop of `find_key_recursive` returns the first
non-empty recursive result among the elements, in order. -/
theorem findInElems_eq_firstSome (elems : List Json) (key : String) :
    findInElems elems key = firstSome (elems.map fun j => find_key_recursive j key) := by
  induction elems with
  | nil => rfl
  | cons head tail ih =>
      simp only [findInElems, List.map]
      cases hf : find_key_recursive head key <;> simp [firstSome, hf, ih]

/-- A chain that contains no `JSONFileHandler` and terminates in a
`DefaultHandler` always resolves to a value. -/
theorem chain_total_aux : ∀ (h : Handler) (st : State) (key : String),
    containsJsonFile h = false → endsInDefault h = true →
    (handle_request st h key).isSome = true
  | .arg args next, st, key, hnj, hd => by
      cases next with
      | none => simp [endsInDefault] at hd
      | some n =>
          have ih := chain_total_aux n st key
            (by simpa [containsJsonFile] using hnj)
            (by simpa [endsInDefault] using hd)
          cases hl : lookupArgs args key with
          | some v => simp [handle_request, hl]
          | none => simpa [handle_request, handleNext, hl] using ih
  | .env next, st, key, hnj, hd => by
      cases next with
      | none => simp [endsInDefault] at hd
      | some n =>
          have ih := chain_total_aux n st key
            (by simpa [containsJsonFile] using hnj)
            (by simpa [endsInDefault] using hd)
          cases hl : st.env key with
          | some v => simp [handle_request, hl]
          | none => simpa [handle_request, handleNext, hl] using ih
  | .file filePath next, st, key, hnj, hd => by
      cases next with
      | none => simp [endsInDefault] at hd
      | some n =>
          have ih := chain_total_aux n st key
            (by simpa [containsJsonFile] using hnj)
            (by simpa [endsInDefault] using hd)
          cases hl : st.fs filePath with
          | some content => simp [handle_request, hl]
          | none => simpa [handle_request, handleNext, hl] using ih
  | .jsonFile filePath next, st, key, hnj, hd => by
      simp [containsJsonFile] at hnj
  | .default value, st, key, hnj, hd => by
      simp [handle_request]

/-! ### Claims -/

/-- C4: For every parsed structured document, the recursive key search
checks an object's own direct members before descending into any child:
whenever the key occurs as a direct member, the search returns that
member's stringified value, regardless of what any child subtree
contains. -/
theorem c4_direct_member_checked_first (map : List (String × Json)) (key : String)
    (value : Json) (h : lookupMember map key = some value) :
    find_key_recursive (.obj map) key = some (stringifyValue value) := by
  simp [find_key_recursive, h]

/-- Witness for C4: on the document of the claim, parsed from its
concrete text, searching "key" returns "shallow", not "deep". -/
theorem c4_witness :
    parseJson "\x7b\"a\": \x7b\"key\": \"deep\"\x7d, \"key\": \"shallow\"\x7d" =
      some shallowDeepDoc ∧
    find_key_recursive shallowDeepDoc "key" = some "shallow" :=
  ⟨rfl, c4_direct_member_checked_first _ "key" (.str "shallow") rfl⟩

/-- C6: When the key is found as a direct member, the returned string
is the member value as-is (without quotes) when the value is a JSON
string, and otherwise the value's canonical textual rendering. -/
theorem c6_stringification (map : List (String × Json)) (key : String) :
    (∀ s, lookupMember map key = some (.str s) →
      find_key_recursive (.obj map) key = some s) ∧
    (∀ v, lookupMember map key = some v → (∀ s, v ≠ .str s) →
      find_key_recursive (.obj map) key = some (renderJson v)) := by
  constructor
  · intro s h
    simp [find_key_recursive, h, stringifyValue]
  · intro v h hne
    have hsv : stringifyValue v = renderJson v := by
      cases v with
      | str s => exact absurd rfl (hne s)
      | num n => rfl
      | bool b => rfl
      | null => rfl
      | arr elems => rfl
      | obj members => rfl
    simp [find_key_recursive, h, hsv]

/-- Witness for C6: the number 123 is rendered as "123", and a string
member is returned without quotes. -/
theorem c6_witness :
    find_key_recursive (.obj [("test_key", .num 123)]) "test_key" = some "123" ∧
    find_key_recursive (.obj [("test_key", .str "example")]) "test_key" = some "example" :=
  ⟨(c6_stringification [("test_key", .num 123)] "test_key").2 (.num 123) rfl
      (fun _ hs => Json.noConfusion hs),
   (c6_stringification [("test_key", .str "example")] "test_key").1 "example" rfl⟩

/-- C7: When the key is not a direct member of an object, the search
visits the member values in the document's order, and an array's
elements first-to-last, returning the first non-empty recursive result
found among them. -/
theorem c7_recursion_first_hit (map : List (String × Json)) (elems : List Json)
    (key : String) (h : lookupMember map key = none) :
    find_key_recursive (.obj map) key =
      firstSome (map.map fun m => find_key_recursive m.2 key) ∧
    find_key_recursive (.arr elems) key =
      firstSome (elems.map fun j => find_key_recursive j key) := by
  constructor
  · simp [find_key_recursive, h, findInMembers_eq_firstSome]
  · simp [find_key_recursive, findInElems_eq_firstSome]

/-- Witness for C7 at a concrete object and array whose key sits in a
nested child. -/
theorem c7_witness :
    find_key_recursive (.obj [("a", .obj [("k", .str "x")]), ("b", .str "y")]) "k" =
      firstSome [find_key_recursive (.obj [("k", .str "x")]) "k",
                 find_key_recursive (.str "y") "k"] ∧
    find_key_recursive (.arr [.null, .obj [("k", .str "x")]]) "k" =
      firstSome [find_key_recursive .null "k",
                 find_key_recursive (.obj [("k", .str "x")]) "k"] :=
  c7_recursion_first_hit [("a", .obj [("k", .str "x")]), ("b", .str "y")]
    [.null, .obj [("k", .str "x")]] "k" rfl

/-- C1 counterexample: a `JSONFileHandler` whose file is read and
parses as `\x7b"other": 1\x7d` (no member named "key" anywhere) and
which holds a `DefaultHandler` next returns no value — it does not
delegate and return the next handler's value. -/
theorem c1_counterexample :
    handle_request keylessJsonState
      (.jsonFile "config.json" (some (.default "fallback"))) "key" = none ∧
    handle_request keylessJsonState (.default "fallback") "key" = some "fallback" :=
  ⟨rfl, rfl⟩

/-- C1 (amended): for every `JSONFileHandler` whose file is read and
parsed successfully but whose parsed document contains no member named
`key` anywhere, `handle_request` returns no value, even when a next
handler is held; delegation to next occurs only when the file read
fails or the content fails to parse. -/
theorem c1_parsed_without_key_yields_none (st : State)
    (filePath key content : String) (doc : Json) (next : Option Handler)
    (hread : st.fs filePath = some content)
    (hparse : parseJson content = some doc)
    (hfind : find_key_recursive doc key = none) :
    handle_request st (.jsonFile filePath next) key = none := by
  simp [handle_request, hread, hparse, hfind]

/-- Witness for the amended C1 at a concrete state and chain. -/
theorem c1_witness :
    handle_request keylessJsonState
      (.jsonFile "config.json" (some (.default "d"))) "key" = none :=
  c1_parsed_without_key_yields_none keylessJsonState "config.json" "key"
    "\x7b\"other\": 1\x7d" (.obj [("other", .num 1)]) (some (.default "d"))
    rfl rfl rfl

/-- C2 counterexample: a chain whose terminal handler is a
`DefaultHandler` but whose head is a `JSONFileHandler` that reads and
parses a document lacking the key resolves to no value. -/
theorem c2_counterexample :
    endsInDefault (.jsonFile "config.json" (some (.default "info"))) = true ∧
    handle_request keylessJsonState
      (.jsonFile "config.json" (some (.default "info"))) "key" = none :=
  ⟨rfl, rfl⟩

/-- C2 (amended): for every chain built from argument, environment and
plain-file handlers whose terminal handler is a `DefaultHandler`,
`handle_request` returns a value for every key.  (The original claim
fails when the chain contains a `JSONFileHandler`: one that reads and
parses a document lacking the key returns no value despite the default
terminal.) -/
theorem c2_default_terminal_total (st : State) (h : Handler) (key : String)
    (hnj : containsJsonFile h = false) (hd : endsInDefault h = true) :
    (handle_request st h key).isSome = true :=
  chain_total_aux h st key hnj hd

/-- Witness for the amended C2 on the conventional
argument → environment → file → default chain. -/
theorem c2_witness :
    (handle_request emptyState
      (.arg [] (some (.env (some (.file "settings" (some (.default "info")))))))
      "verbosity").isSome = true :=
  c2_default_terminal_total emptyState
    (.arg [] (some (.env (some (.file "settings" (some (.default "info")))))))
    "verbosity" rfl rfl

/-- C3 counterexample: in a state where only the variable "verbosity"
is set, querying the pre-pended name "FIXME_verbosity" (as the claim
describes) finds nothing, yet the `EnvHandler` of `cli.rs` returns
"debug" — it queries the key name itself, holding no configured
pre-pended part at all. -/
theorem c3_counterexample :
    envResolveWithPre verbosityEnvState "FIXME_" "verbosity" = none ∧
    handle_request verbosityEnvState (.env none) "verbosity" = some "debug" :=
  ⟨rfl, rfl⟩

/-- C3 (amended): the environment handler holds no configured
pre-pended name part; for every key `k`, `handle_request` queries the
process environment for the variable named exactly `k`; if that
variable is set its value is returned, otherwise the handler delegates
to next when present and returns no value when not. -/
theorem c3_env_queries_unadorned_key (st : State) (next : Option Handler)
    (key value : String) :
    (st.env key = some value → handle_request st (.env next) key = some value) ∧
    (∀ n, st.env key = none → next = some n →
      handle_request st (.env next) key = handle_request st n key) ∧
    (st.env key = none → next = none → handle_request st (.env next) key = none) := by
  refine ⟨fun h => by simp [handle_request, h], fun n h hn => ?_, fun h hn => ?_⟩
  · subst hn
    simp [handle_request, handleNext, h]
  · subst hn
    simp [handle_request, handleNext, h]

/-- Witness for the amended C3 at a concrete environment. -/
theorem c3_witness :
    handle_request verbosityEnvState (.env none) "verbosity" = some "debug" ∧
    handle_request verbosityEnvState (.env (some (.default "info"))) "other" =
      handle_request verbosityEnvState (.default "info") "other" ∧
    handle_request verbosityEnvState (.env none) "other" = none :=
  ⟨(c3_env_queries_unadorned_key verbosityEnvState none "verbosity" "debug").1 rfl,
   (c3_env_queries_unadorned_key verbosityEnvState (some (.default "info")) "other" "x").2.1
      (.default "info") rfl rfl,
   (c3_env_queries_unadorned_key verbosityEnvState none "other" "x").2.2 rfl rfl⟩

/-- C5: if the first handler of a chain produces a value for the key
from its own source, the chain resolves to exactly that value, whatever
handlers follow: the result is unchanged under replacing the rest of
the chain arbitrarily. -/
theorem c5_first_success_short_circuits (st : State) (h : Handler)
    (key value : String) (hown : ownLookup st h key = some value)
    (replacement : Option Handler) :
    handle_request st (setNext h replacement) key = some value := by
  cases h with
  | arg args next =>
      simp only [ownLookup] at hown
      simp [setNext, handle_request, hown]
  | env next =>
      simp only [ownLookup] at hown
      simp [setNext, handle_request, hown]
  | file filePath next =>
      simp only [ownLookup] at hown
      simp [setNext, handle_request, hown]
  | jsonFile filePath next =>
      simp only [ownLookup, Option.bind_eq_some] at hown
      obtain ⟨content, hc, doc, hd, hv⟩ := hown
      simp [setNext, handle_request, hc, hd, hv]
  | default v =>
      simp only [ownLookup, Option.some.injEq] at hown
      simp [setNext, handle_request, hown]

/-- Witness for C5: an argument handler that holds the key keeps its
value when a default handler is appended after it. -/
theorem c5_witness :
    handle_request emptyState
      (setNext (.arg [("example", "test_value")] none)
        (some (.default "DEFAULT_VALUE"))) "example" = some "test_value" :=
  c5_first_success_short_circuits emptyState (.arg [("example", "test_value")] none)
    "example" "test_value" rfl (some (.default "DEFAULT_VALUE"))

/-- C8: a `FileHandler` whose file is read successfully returns the
file's entire content verbatim whatever the key; on read failure it
delegates to next when present and returns no value when not. -/
theorem c8_plain_file_verbatim (st : State) (filePath key content : String) :
    (st.fs filePath = some content →
      ∀ next, handle_request st (.file filePath next) key = some content) ∧
    (st.fs filePath = none →
      ∀ n, handle_request st (.file filePath (some n)) key = handle_request st n key) ∧
    (st.fs filePath = none → handle_request st (.file filePath none) key = none) := by
  refine ⟨fun h next => by simp [handle_request, h],
          fun h n => by simp [handle_request, handleNext, h],
          fun h => by simp [handle_request, handleNext, h]⟩

/-- Witness for C8: a file containing "test_content\n" resolves to
exactly "test_content\n" (trailing newline kept), and a missing file
delegates. -/
theorem c8_witness :
    handle_request plainFileState (.file "file.txt" none) "example" =
      some "test_content\n" ∧
    handle_request plainFileState (.file "missing.txt" (some (.default "DEFAULT_VALUE")))
      "example" = handle_request plainFileState (.default "DEFAULT_VALUE") "example" :=
  ⟨(c8_plain_file_verbatim plainFileState "file.txt" "example" "test_content\n").1 rfl none,
   (c8_plain_file_verbatim plainFileState "missing.txt" "example" "x").2.1 rfl
      (.default "DEFAULT_VALUE")⟩

/-- C9: resolution is a deterministic function of the held
configuration, the key, and the ambient state: two resolutions of the
same chain and key under states that agree on the environment and the
file system return the same result. -/
theorem c9_resolution_deterministic (h : Handler) (key : String) (st st2 : State)
    (henv : st.env = st2.env) (hfs : st.fs = st2.fs) :
    handle_request st h key = handle_request st2 h key := by
  obtain ⟨e, f⟩ := st
  obtain ⟨e2, f2⟩ := st2
  cases henv
  cases hfs
  rfl

/-- Witness for C9: two calls on structurally equal states agree. -/
theorem c9_witness :
    handle_request emptyState (.env (some (.default "info"))) "verbosity" =
      handle_request { env := fun _ => none, fs := fun _ => none }
        (.env (some (.default "info"))) "verbosity" :=
  c9_resolution_deterministic (.env (some (.default "info"))) "verbosity"
    emptyState { env := fun _ => none, fs := fun _ => none } rfl rfl

/-- C10: a `JSONFileHandler` whose own file read fails treats the next
handler's returned value as file content: when that value parses as
JSON containing the key, the extracted member value is returned instead
of the next handler's value; when it does not parse as JSON, the next
handler is invoked a second time and that second result is returned. -/
theorem c10_json_uses_next_as_file_data (st : State) (filePath key : String)
    (n : Handler) (s : String)
    (hread : st.fs filePath = none)
    (hnext : handle_request st n key = some s) :
    (∀ doc value, parseJson s = some doc → find_key_recursive doc key = some value →
      handle_request st (.jsonFile filePath (some n)) key = some value) ∧
    (parseJson s = none →
      handle_request st (.jsonFile filePath (some n)) key = handle_request st n key) := by
  constructor
  · intro doc value hp hf
    simp [handle_request, handleNext, hread, hnext, hp, hf]
  · intro hp
    simp [handle_request, handleNext, hread, hnext, hp]

/-- Witness for C10: with an unreadable file, a next handler answering
a JSON object containing the key yields the extracted member value,
while a next handler answering plain text yields that text. -/
theorem c10_witness :
    handle_request emptyState
      (.jsonFile "missing.json" (some (.default "\x7b\"mykey\": \"v\"\x7d")))
      "mykey" = some "v" ∧
    handle_request emptyState
      (.jsonFile "missing.json" (some (.default "DEFAULT_VALUE"))) "mykey" =
      handle_request emptyState (.default "DEFAULT_VALUE") "mykey" :=
  ⟨(c10_json_uses_next_as_file_data emptyState "missing.json" "mykey"
      (.default "\x7b\"mykey\": \"v\"\x7d") "\x7b\"mykey\": \"v\"\x7d" rfl rfl).1
      (.obj [("mykey", .str "v")]) "v" rfl rfl,
   (c10_json_uses_next_as_file_data emptyState "missing.json" "mykey"
      (.default "DEFAULT_VALUE") "DEFAULT_VALUE" rfl rfl).2 rfl⟩
